import Mathlib

/-
Verification of the n8n-nodes-opencode-ai integration package.

This file shallowly embeds the request-shaping and response-flattening
logic of the package (the send/command/shell/skill message actions, the
temporary-session lifecycle, the dynamic option loaders, the dispatch
switches and the host execute loop) and proves the testable properties
stated in its specification.

JavaScript strings are modelled as Lean `String`s (lists of characters);
`String.prototype.split`, `trim`, `includes`, `Array.prototype.join` and
`JSON.parse` are given explicit executable models below, faithful to
their semantics on the inputs this package feeds them.
-/

set_option maxRecDepth 4000

/-- JSON values as produced by a model of `JSON.parse`.  Numbers keep
their source lexeme: no action in this package computes on a parsed
number, it is only passed through, so the lexeme is a faithful carrier.
`jsUndefined` models a JavaScript `undefined` property value. -/
inductive JVal where
  | null : JVal
  | bool : Bool → JVal
  | num : String → JVal
  | str : String → JVal
  | arr : List JVal → JVal
  | obj : List (String × JVal) → JVal
  | jsUndefined : JVal

/-- Whitespace stripped by `String.prototype.trim` (ASCII portion). -/
def isJsWhitespace (c : Char) : Bool :=
  c = ' ' || c = '\t' || c = '\n' || c = '\r' || c = '\x0b' || c = '\x0c'

/-- Model of `String.prototype.trim` on the character list. -/
def jsTrimList (l : List Char) : List Char :=
  ((l.dropWhile isJsWhitespace).reverse.dropWhile isJsWhitespace).reverse

/-- Model of `String.prototype.trim`. -/
def jsTrim (s : String) : String :=
  String.mk (jsTrimList s.data)

/-- Scanner for `String.prototype.split` with a non-empty string
separator: scan left to right, cut at each non-overlapping occurrence.
The fuel argument bounds the recursion; every step consumes at least one
character, so fuel equal to the input length is always sufficient. -/
def splitLoop (sep : List Char) : Nat → List Char → List Char → List (List Char)
  | _, [], acc => [acc.reverse]
  | 0, l, acc => [acc.reverse ++ l]
  | fuel + 1, c :: rest, acc =>
    if sep.isPrefixOf (c :: rest) then
      acc.reverse :: splitLoop sep fuel (List.drop (sep.length - 1) rest) []
    else
      splitLoop sep fuel rest (c :: acc)

/-- Model of `String.prototype.split(sep)` for non-empty `sep`. -/
def jsSplit (s sep : String) : List String :=
  (splitLoop sep.data s.data.length s.data []).map String.mk

/-- Occurrence test on character lists: does `sub` occur contiguously? -/
def hasOcc (sub : List Char) : List Char → Bool
  | [] => sub.isEmpty
  | c :: rest => sub.isPrefixOf (c :: rest) || hasOcc sub rest

/-- Model of `String.prototype.includes(sub)` for non-empty `sub`. -/
def jsIncludes (s sub : String) : Bool :=
  hasOcc sub.data s.data

/-- Model of `Array.prototype.join(sep)` on a list of strings. -/
def jsJoin (sep : String) : List String → String
  | [] => ""
  | s :: rest => rest.foldl (fun a b => a ++ sep ++ b) s

/-- Model of `String.prototype.replace(pat, rep)` with a string pattern:
replaces only the first occurrence. -/
def jsReplaceFirstList (pat rep : List Char) : List Char → List Char
  | [] => []
  | c :: rest =>
    if pat.isPrefixOf (c :: rest) then
      rep ++ List.drop (pat.length - 1) rest
    else
      c :: jsReplaceFirstList pat rep rest

/-- Model of `String.prototype.replace` (first occurrence only). -/
def jsReplaceFirst (s pat rep : String) : String :=
  String.mk (jsReplaceFirstList pat.data rep.data s.data)

/-! ### A model of `JSON.parse` (RFC 8259 grammar)

Recursive descent over the character list.  The mutual recursion is
bounded by a fuel argument; the top-level entry point supplies fuel
larger than the nesting depth any input of that length can reach, so
the model is total and agrees with `JSON.parse` on acceptance. -/

/-- JSON insignificant whitespace. -/
def isJsonWs (c : Char) : Bool :=
  c = ' ' || c = '\t' || c = '\n' || c = '\r'

/-- Drop leading JSON whitespace. -/
def skipWs (l : List Char) : List Char :=
  l.dropWhile isJsonWs

/-- Value of a hexadecimal digit, if any. -/
def hexDigitVal (c : Char) : Option Nat :=
  if '0' ≤ c ∧ c ≤ '9' then some (c.toNat - '0'.toNat)
  else if 'a' ≤ c ∧ c ≤ 'f' then some (c.toNat - 'a'.toNat + 10)
  else if 'A' ≤ c ∧ c ≤ 'F' then some (c.toNat - 'A'.toNat + 10)
  else none

/-- Single-character JSON string escapes. -/
def escChar (c : Char) : Option Char :=
  if c = '"' then some '"'
  else if c = '\\' then some '\\'
  else if c = '/' then some '/'
  else if c = 'b' then some '\x08'
  else if c = 'f' then some '\x0c'
  else if c = 'n' then some '\n'
  else if c = 'r' then some '\r'
  else if c = 't' then some '\t'
  else none

/-- Parse the body of a JSON string after the opening quote; returns the
decoded characters and the rest of the input after the closing quote. -/
def parseStrBody : List Char → Option (List Char × List Char)
  | [] => none
  | c :: rest =>
    if c = '"' then some ([], rest)
    else if c = '\\' then
      match rest with
      | [] => none
      | e :: rest2 =>
        if e = 'u' then
          match rest2 with
          | a :: b :: c2 :: d :: rest3 =>
            match hexDigitVal a, hexDigitVal b, hexDigitVal c2, hexDigitVal d with
            | some ha, some hb, some hc, some hd =>
              match parseStrBody rest3 with
              | some (cs, rem) =>
                some (Char.ofNat (((ha * 16 + hb) * 16 + hc) * 16 + hd) :: cs, rem)
              | none => none
            | _, _, _, _ => none
          | _ => none
        else
          match escChar e with
          | some c2 =>
            match parseStrBody rest2 with
            | some (cs, rem) => some (c2 :: cs, rem)
            | none => none
          | none => none
    else if c.toNat < 32 then none
    else
      match parseStrBody rest with
      | some (cs, rem) => some (c :: cs, rem)
      | none => none

/-- Split off the leading run of decimal digits. -/
def spanDigits (l : List Char) : List Char × List Char :=
  (l.takeWhile Char.isDigit, l.dropWhile Char.isDigit)

/-- Parse the optional fraction portion of a JSON number. -/
def parseFracPart : List Char → Option (List Char × List Char)
  | '.' :: r =>
    let p := spanDigits r
    if p.1.isEmpty then none else some ('.' :: p.1, p.2)
  | l => some ([], l)

/-- Parse the optional exponent portion of a JSON number. -/
def parseExpPart : List Char → Option (List Char × List Char)
  | [] => some ([], [])
  | c :: r =>
    if c = 'e' ∨ c = 'E' then
      let sp : List Char × List Char :=
        match r with
        | '+' :: rr => (['+'], rr)
        | '-' :: rr => (['-'], rr)
        | _ => ([], r)
      let p := spanDigits sp.2
      if p.1.isEmpty then none else some (c :: sp.1 ++ p.1, p.2)
    else some ([], c :: r)

/-- Parse the integer portion of a JSON number (after any minus sign). -/
def parseIntPart : List Char → Option (List Char × List Char)
  | [] => none
  | c :: r =>
    if c = '0' then some (['0'], r)
    else if c.isDigit then
      let p := spanDigits r
      some (c :: p.1, p.2)
    else none

/-- Parse a full JSON number; returns its lexeme and the rest. -/
def parseNum (l : List Char) : Option (List Char × List Char) :=
  let sp : List Char × List Char :=
    match l with
    | '-' :: r => (['-'], r)
    | _ => ([], l)
  match parseIntPart sp.2 with
  | none => none
  | some (ip, r1) =>
    match parseFracPart r1 with
    | none => none
    | some (fp, r2) =>
      match parseExpPart r2 with
      | none => none
      | some (ep, r3) => some (sp.1 ++ ip ++ fp ++ ep, r3)

/-- Loop for comma-separated array elements up to the closing bracket;
the value parser is passed in, the loop fuel bounds the iterations. -/
def elemsLoop (pv : List Char → Option (JVal × List Char)) :
    Nat → List Char → List JVal → Option (List JVal × List Char)
  | 0, _, _ => none
  | n + 1, l, acc =>
    match pv l with
    | none => none
    | some (v, r) =>
      match skipWs r with
      | ',' :: r2 => elemsLoop pv n r2 (v :: acc)
      | '\x5d' :: r2 => some ((v :: acc).reverse, r2)
      | _ => none

/-- Loop for comma-separated object members up to the closing brace. -/
def membersLoop (pv : List Char → Option (JVal × List Char)) :
    Nat → List Char → List (String × JVal) → Option (List (String × JVal) × List Char)
  | 0, _, _ => none
  | n + 1, l, acc =>
    match skipWs l with
    | '"' :: r =>
      match parseStrBody r with
      | none => none
      | some (k, r2) =>
        match skipWs r2 with
        | ':' :: r3 =>
          match pv r3 with
          | none => none
          | some (v, r4) =>
            match skipWs r4 with
            | ',' :: r5 => membersLoop pv n r5 ((String.mk k, v) :: acc)
            | '\x7d' :: r5 => some (((String.mk k, v) :: acc).reverse, r5)
            | _ => none
        | _ => none
    | _ => none

/-- Parse one JSON value (fuel-bounded recursive descent).  The fuel
bounds the nesting depth; each nested value sits behind at least one
consumed character, so depth never exceeds the input length. -/
def parseVal : Nat → List Char → Option (JVal × List Char)
  | 0, _ => none
  | fuel + 1, l =>
    match skipWs l with
    | 't' :: 'r' :: 'u' :: 'e' :: r => some (.bool true, r)
    | 'f' :: 'a' :: 'l' :: 's' :: 'e' :: r => some (.bool false, r)
    | 'n' :: 'u' :: 'l' :: 'l' :: r => some (.null, r)
    | '"' :: r =>
      match parseStrBody r with
      | some (cs, rem) => some (.str (String.mk cs), rem)
      | none => none
    | '\x5b' :: r =>
      (match skipWs r with
      | '\x5d' :: r2 => some (.arr [], r2)
      | _ =>
        match elemsLoop (parseVal fuel) (r.length + 1) r [] with
        | some (vs, rem) => some (.arr vs, rem)
        | none => none)
    | '\x7b' :: r =>
      (match skipWs r with
      | '\x7d' :: r2 => some (.obj [], r2)
      | _ =>
        match membersLoop (parseVal fuel) (r.length + 1) r [] with
        | some (kvs, rem) => some (.obj kvs, rem)
        | none => none)
    | l2 =>
      match parseNum l2 with
      | some (lex, rem) => some (.num (String.mk lex), rem)
      | none => none

/-- Model of `JSON.parse`: parse one value, require only whitespace to
remain, fail (`none`, modelling the thrown `SyntaxError`) otherwise. -/
def jsonParse (s : String) : Option JVal :=
  match parseVal (s.data.length + 2) s.data with
  | some (v, rest) => if (skipWs rest).isEmpty then some v else none
  | none => none



/-! ### Data model of the package (types/index.ts and helpers/api.ts) -/

/-- `state.metadata` of a tool message part (shell.ts reads `.output`). -/
structure ToolStateMeta where
  output : Option String
deriving DecidableEq

/-- `state` of a tool message part. -/
structure ToolState where
  output : Option String
  metadata : Option ToolStateMeta
deriving DecidableEq

/-- `IMessagePart`: a discriminated response fragment.  Absent JS fields
are `none`. -/
structure MessagePart where
  type : String
  text : Option String
  state : Option ToolState
deriving DecidableEq

/-- `info.tokens` of a send response. -/
structure TokenInfo where
  input : Option Nat
  output : Option Nat
deriving DecidableEq

/-- `info` of a send response (`ISendMessageResponse.info`). -/
structure ResponseInfo where
  id : Option String
  sessionID : Option String
  modelID : Option String
  providerID : Option String
  tokens : Option TokenInfo
  cost : Option Int
deriving DecidableEq

/-- `ISendMessageResponse`. -/
structure SendResponse where
  parts : Option (List MessagePart)
  info : Option ResponseInfo
deriving DecidableEq

/-- JavaScript `??` (nullish coalescing) on an optional boolean. -/
def nullishBool (v : Option Bool) (d : Bool) : Bool :=
  v.getD d

/-- JavaScript `||` with a string default: the default is taken when the
value is absent or the empty string (both falsy). -/
def orString (v : Option String) (d : String) : String :=
  match v with
  | some s => if s = "" then d else s
  | none => d

/-- The `options` collection read by send/command/shell/skill actions,
before defaulting (`undefined` fields are `none`). -/
structure RawOptions where
  trimResponse : Option Bool
  responseKey : Option String
  agent : Option String
  messageID : Option String
  system : Option String
  noReply : Option Bool
  tools : Option String
deriving DecidableEq

/-- The node parameters consumed by `sendMessage` (send.ts). -/
structure SendParams where
  sessionMode : String
  message : String
  simpleResponse : Bool
  model : String
  options : RawOptions
  tempSessionTitle : String
  sessionId : String
deriving DecidableEq

/-- The structured `\x7bproviderID, modelID\x7d` pair sent in message
payloads. -/
structure ModelRef where
  providerID : String
  modelID : String
deriving DecidableEq

/-- Encoding used by the `getModels` option loader
(OpenCode.node.ts): `provider.id::model.id` as one flat string. -/
def encodeModelSelector (providerID modelID : String) : String :=
  providerID ++ "::" ++ modelID

/-- Decoding used by the payload builders (send.ts and friends):
`if (model && model.includes('::')) \x7b const [providerID, modelID] =
model.split('::'); ... \x7d`; `none` when the guard fails. -/
def decodeModelSelector (model : String) : Option ModelRef :=
  if model = "" then none
  else if jsIncludes model "::" then
    let fields := jsSplit model "::"
    some ⟨fields.getD 0 "", fields.getD 1 ""⟩
  else none

/-- The `/session/:id/message` request payload built by `sendMessage`;
optional fields are attached only when their parameter is set (JS
truthiness), mirroring send.ts lines 39-68. -/
structure SendPayload where
  parts : List MessagePart
  model : Option ModelRef
  agent : Option String
  messageID : Option String
  system : Option String
  noReply : Option Bool
  tools : Option JVal

/-- Payload construction of `sendMessage` (send.ts). -/
def buildSendPayload (p : SendParams) : SendPayload :=
  let agent := orString p.options.agent ""
  let messageID := orString p.options.messageID ""
  let system := orString p.options.system ""
  let noReply := nullishBool p.options.noReply false
  let toolsJson := orString p.options.tools ""
  { parts := [⟨"text", some p.message, none⟩]
    model := decodeModelSelector p.model
    agent := if agent = "" then none else some agent
    messageID := if messageID = "" then none else some messageID
    system := if system = "" then none else some system
    noReply := if noReply then some true else none
    tools := if toolsJson = "" then none else jsonParse toolsJson }

/-! ### Response flattening (send.ts lines 77-86 and duplicates) -/

/-- `p.text || ''`. -/
def partTextOrEmpty (p : MessagePart) : String :=
  match p.text with
  | some t => t
  | none => ""

/-- `(response.parts || []).filter(p => p.type === 'text').map(p =>
p.text || '').join('\n')`. -/
def responseTextRaw (parts : List MessagePart) : String :=
  jsJoin "\n" ((parts.filter (fun p => p.type == "text")).map partTextOrEmpty)

/-- `if (trimResponse) responseText = responseText.trim()`. -/
def applyTrim (trimFlag : Bool) (s : String) : String :=
  if trimFlag then jsTrim s else s

/-- Spec-side list of contributed text fields: the `text` fields of
exactly the parts with type "text", in order, absent fields contributing
the empty string.  Written from the specification wording, to be
compared with the source-derived `responseTextRaw`. -/
def specTextFields : List MessagePart → List String
  | [] => []
  | p :: rest =>
    if p.type = "text" then
      (match p.text with
      | some t => t
      | none => "") :: specTextFields rest
    else specTextFields rest

/-- Spec-side newline join ("joined with a single newline"). -/
def specJoinNl : List String → String
  | [] => ""
  | [s] => s
  | s :: rest => s ++ "\n" ++ specJoinNl rest

/-- Spec-side flattened response text: newline-joined text fields,
whitespace-trimmed iff the trim option is set.  Written from the
specification wording. -/
def specFlattenedText (parts : List MessagePart) (trimFlag : Bool) : String :=
  if trimFlag then jsTrim (specJoinNl (specTextFields parts))
  else specJoinNl (specTextFields parts)

/-! ### Output records -/

/-- Encode an optional JS string field. -/
def jOptStr : Option String → JVal
  | some s => .str s
  | none => .jsUndefined

/-- Encode an optional JS number field. -/
def jOptNat : Option Nat → JVal
  | some n => .num (toString n)
  | none => .jsUndefined

/-- Encode an optional JS (integer) number field. -/
def jOptInt : Option Int → JVal
  | some n => .num (toString n)
  | none => .jsUndefined

/-- Encode the `tokens` passthrough field. -/
def jTokens : Option TokenInfo → JVal
  | some t => .obj [("input", jOptNat t.input), ("output", jOptNat t.output)]
  | none => .jsUndefined

/-- Encode a tool state passthrough. -/
def jToolState : Option ToolState → JVal
  | some st =>
    .obj [("output", jOptStr st.output),
      ("metadata", match st.metadata with
        | some m => .obj [("output", jOptStr m.output)]
        | none => .jsUndefined)]
  | none => .jsUndefined

/-- Encode a message part passthrough. -/
def jPart (p : MessagePart) : JVal :=
  .obj [("type", .str p.type), ("text", jOptStr p.text), ("state", jToolState p.state)]

/-- Encode the `parts` passthrough field. -/
def jParts : Option (List MessagePart) → JVal
  | some l => .arr (l.map jPart)
  | none => .jsUndefined

/-- One emitted n8n item: a json value paired to its input item. -/
structure OutRec where
  json : JVal
  pairedItem : Nat

/-- Flattened (and optionally trimmed) text of a send response. -/
def sendResponseText (resp : SendResponse) (trimFlag : Bool) : String :=
  applyTrim trimFlag (responseTextRaw (resp.parts.getD []))

/-- Output records of `sendMessage` for a successful response
(send.ts lines 88-123): in simple mode the text is JSON-parsed when
possible, otherwise wrapped under the response key; in full mode a
metadata record is built. -/
def mkSendOutput (p : SendParams) (sid : String) (wasTemp : Bool)
    (resp : SendResponse) (idx : Nat) : List OutRec :=
  let trimFlag := nullishBool p.options.trimResponse true
  let responseKey := orString p.options.responseKey "response"
  let responseText := sendResponseText resp trimFlag
  if p.simpleResponse then
    match jsonParse responseText with
    | some v => [⟨v, idx⟩]
    | none => [⟨.obj [(responseKey, .str responseText)], idx⟩]
  else
    [⟨.obj [
      ("messageId", jOptStr (resp.info.bind (·.id))),
      ("sessionId", .str (orString (resp.info.bind (·.sessionID)) sid)),
      ("model", jOptStr (resp.info.bind (·.modelID))),
      ("provider", jOptStr (resp.info.bind (·.providerID))),
      ("tokens", jTokens (resp.info.bind (·.tokens))),
      ("cost", jOptInt (resp.info.bind (·.cost))),
      ("wasTemporarySession", .bool wasTemp),
      (responseKey, .str responseText),
      ("parts", jParts resp.parts)], idx⟩]

/-! ### Transport world and the temporary-session lifecycle
(helpers/api.ts and send.ts) -/

/-- The single error kind surfaced by `openCodeApiRequest`. -/
inductive ApiErr where
  | requestFailed (msg : String)
deriving DecidableEq

/-- A request issued to the remote service, as recorded in a trace. -/
inductive ApiCall where
  | createSession (title : String)
  | postMessage (sessionId : String) (payload : SendPayload)
  | deleteSession (sessionId : String)

/-- Is this call a DELETE of the given session id? -/
def ApiCall.isDeleteFor (sid : String) : ApiCall → Bool
  | .deleteSession s => s == sid
  | _ => false

/-- Is this call a message POST? -/
def ApiCall.isPost : ApiCall → Bool
  | .postMessage _ _ => true
  | _ => false

/-- Is this call a session DELETE (of any id)? -/
def ApiCall.isDelete : ApiCall → Bool
  | .deleteSession _ => true
  | _ => false

/-- Remote-service behavior: the outcome of each request kind. -/
structure World where
  createRes : Except ApiErr String
  sendRes : String → SendPayload → Except ApiErr SendResponse
  deleteRes : String → Except ApiErr Unit

/-- Model of `deleteSession` (helpers/api.ts lines 74-87): issue the
DELETE, log and swallow any failure, return nothing. -/
def deleteSessionHelper (w : World) (sid : String) : List ApiCall × List String :=
  ([.deleteSession sid],
    match w.deleteRes sid with
    | .ok _ => []
    | .error _ => ["Failed to delete session " ++ sid])

/-- The `try` block of `sendMessage`: build the payload, POST it, map a
success through the output construction; an error is re-thrown as is. -/
def sendTryBlock (w : World) (p : SendParams) (sid : String) (wasTemp : Bool)
    (idx : Nat) : Except ApiErr (List OutRec) × List ApiCall :=
  let payload := buildSendPayload p
  match w.sendRes sid payload with
  | .error e => (.error e, [.postMessage sid payload])
  | .ok resp => (.ok (mkSendOutput p sid wasTemp resp idx), [.postMessage sid payload])

/-- Outcome of one action run: its result (or thrown error), the trace
of issued requests, and the log lines written. -/
structure ActionResult where
  res : Except ApiErr (List OutRec)
  calls : List ApiCall
  logs : List String

/-- Model of `sendMessage` (send.ts): in temporary mode create a
session first (a create failure propagates before the `try` block is
entered), run the try block against the new id and delete the session
in the `finally`; in existing mode run against the configured id with
no create or delete. -/
def sendMessageModel (w : World) (p : SendParams) (idx : Nat) : ActionResult :=
  if p.sessionMode == "temporary" then
    match w.createRes with
    | .error e => ⟨.error e, [.createSession p.tempSessionTitle], []⟩
    | .ok sid =>
      let tb := sendTryBlock w p sid true idx
      let del := deleteSessionHelper w sid
      ⟨tb.1, .createSession p.tempSessionTitle :: tb.2 ++ del.1, del.2⟩
  else
    let tb := sendTryBlock w p p.sessionId false idx
    ⟨tb.1, tb.2, []⟩

/-! ### Shell and skill output extraction (shell.ts) -/

/-- `part.state.metadata?.output || ''` (an absent or empty metadata
output falls through to the empty string). -/
def toolMetaOutput (st : ToolState) : String :=
  match st.metadata with
  | some m =>
    (match m.output with
    | some s => s
    | none => "")
  | none => ""

/-- `part.state.output || part.state.metadata?.output || ''`: the state
output, falling back to the metadata output when absent or empty. -/
def toolEffOutput (st : ToolState) : String :=
  match st.output with
  | some s => if s = "" then toolMetaOutput st else s
  | none => toolMetaOutput st

/-- The `executeShell` accumulation loop (shell.ts lines 54-67): for
each part with type "tool" and a present state, append its effective
output when non-empty. -/
def shellOutputRaw (parts : List MessagePart) : String :=
  parts.foldl
    (fun acc p =>
      if p.type == "tool" then
        match p.state with
        | some st =>
          let out := toolEffOutput st
          if out = "" then acc else acc ++ out
        | none => acc
      else acc)
    ""

/-- `executeShell`'s flattened output, trimmed when configured. -/
def shellOutput (parts : List MessagePart) (trimFlag : Bool) : String :=
  applyTrim trimFlag (shellOutputRaw parts)

/-- `executeSkill`'s response text (shell.ts lines 185-194): the same
text-part flattening as `sendMessage`, trimmed when configured. -/
def skillResponseText (parts : List MessagePart) (trimFlag : Bool) : String :=
  applyTrim trimFlag (responseTextRaw parts)

/-- Spec-side concatenation of the effective outputs of the tool-typed
parts that carry a state, in order. -/
def specToolConcat : List MessagePart → String
  | [] => ""
  | p :: rest =>
    (if p.type = "tool" then
      match p.state with
      | some st => toolEffOutput st
      | none => ""
    else "") ++ specToolConcat rest

/-! ### The two `executeCommand` payload builders -/

/-- The `/session/:id/command` request payload.  The `arguments` and
`model` fields keep their JS value shape (`arguments` is an object in
one source variant and a string in the other, `model` an object in one
and a string in the other). -/
structure CommandPayload where
  command : String
  arguments : JVal
  messageID : Option String
  agent : Option String
  model : Option JVal

/-- `arguments` as built by the JSON-parsing `executeCommand` variant:
parse the parameter as JSON, wrap it as `\x7binput: value\x7d` when
parsing fails, `\x7b\x7d` when the parameter is empty. -/
def commandArgsJsonVariant (commandArguments : String) : JVal :=
  if commandArguments = "" then .obj []
  else
    match jsonParse commandArguments with
    | some v => v
    | none => .obj [("input", .str commandArguments)]

/-- `arguments` as built by the string-passthrough `executeCommand`
variant: `commandArguments || ''`, always a string. -/
def commandArgsStringVariant (commandArguments : String) : JVal :=
  .str (if commandArguments = "" then "" else commandArguments)

/-- Full payload of the JSON-parsing `executeCommand` variant (the
model selector decodes to an object). -/
def buildCommandPayloadJsonVariant (command commandArguments model messageId agent : String) :
    CommandPayload :=
  { command
    arguments := commandArgsJsonVariant commandArguments
    messageID := if messageId = "" then none else some messageId
    agent := if agent = "" then none else some agent
    model :=
      match decodeModelSelector model with
      | some r => some (.obj [("providerID", .str r.providerID), ("modelID", .str r.modelID)])
      | none => none }

/-- Full payload of the string-passthrough `executeCommand` variant
(the model selector is rewritten to a `provider/model` string). -/
def buildCommandPayloadStringVariant (command commandArguments model messageId agent : String) :
    CommandPayload :=
  { command
    arguments := commandArgsStringVariant commandArguments
    messageID := if messageId = "" then none else some messageId
    agent := if agent = "" then none else some agent
    model :=
      if model = "" then none
      else if jsIncludes model "::" then some (.str (jsReplaceFirst model "::" "/"))
      else none }

/-! ### Dynamic option loaders (OpenCode.node.ts methods.loadOptions) -/

/-- A `\x7blabel, value\x7d` dropdown entry (plus optional description). -/
structure OptionItem where
  name : String
  value : String
  description : Option String
deriving DecidableEq

/-- A JS value that is either an array of typed items or something
else (`Array.isArray` discrimination). -/
inductive JsArrOr (α : Type) where
  | arr (l : List α)
  | scalar (v : α)

/-- A session as consumed by `getSessions`. -/
structure SessionEntry where
  id : String
  title : Option String
deriving DecidableEq

/-- `session.title || 'Session ' + id.substring(0, 8) + '...'`. -/
def sessionOptionName (s : SessionEntry) : String :=
  orString s.title ("Session " ++ s.id.take 8 ++ "...")

/-- Model of the `getSessions` loader: wrap a non-array response as a
one-element array, map to options; one sentinel entry on failure. -/
def getSessionsModel : Except ApiErr (JsArrOr SessionEntry) → List OptionItem
  | .error _ => [⟨"Error loading sessions", "", none⟩]
  | .ok r =>
    let sessions :=
      match r with
      | .arr l => l
      | .scalar v => [v]
    sessions.map (fun s => ⟨sessionOptionName s, s.id, some ("ID: " ++ s.id)⟩)

/-- One selectable model of a provider (`Object.values` order). -/
structure ModelEntry where
  id : String
  name : Option String
deriving DecidableEq

/-- A provider as consumed by `getModels`. -/
structure ProviderEntry where
  id : String
  name : Option String
  models : Option (List ModelEntry)
deriving DecidableEq

/-- The `/config/providers` response shape. -/
structure ProvidersResp where
  providers : Option (List ProviderEntry)

/-- Model of the `getModels` loader: a leading `(Default)` entry, then
one entry per provider model with the `provider.id::model.id` composite
value; one sentinel `(Default)` entry on failure. -/
def getModelsModel : Except ApiErr ProvidersResp → List OptionItem
  | .error _ => [⟨"(Default)", "", none⟩]
  | .ok r =>
    ⟨"(Default)", "", none⟩ ::
      (r.providers.getD []).flatMap (fun prov =>
        match prov.models with
        | some models =>
          models.map (fun m =>
            ⟨orString prov.name prov.id ++ ": " ++ orString m.name m.id,
              encodeModelSelector prov.id m.id,
              some ("Provider: " ++ prov.id)⟩)
        | none => [])

/-- An agent as consumed by `getAgents`. -/
structure AgentEntry where
  name : String
  mode : Option String
deriving DecidableEq

/-- Model of the `getAgents` loader: a non-array response becomes the
empty list, the first agent with mode "primary" is listed first, then
all others; one sentinel `(Default)` entry on failure. -/
def getAgentsModel : Except ApiErr (JsArrOr AgentEntry) → List OptionItem
  | .error _ => [⟨"(Default)", "", none⟩]
  | .ok r =>
    let agents :=
      match r with
      | .arr l => l
      | .scalar _ => []
    let primaryAgent := agents.find? (fun a => a.mode == some "primary")
    let otherAgents := agents.filter (fun a => !(a.mode == some "primary"))
    (match primaryAgent with
    | some a => [⟨a.name ++ " (Primary)", a.name, some "Primary agent"⟩]
    | none => []) ++
      otherAgents.map (fun a =>
        ⟨a.name, a.name,
          match a.mode with
          | some m => if m = "" then none else some ("Mode: " ++ m)
          | none => none⟩)

/-- A command as consumed by `getCommands`. -/
structure CommandEntry where
  name : String
  description : Option String
deriving DecidableEq

/-- Model of the `getCommands` loader: a non-array response becomes the
empty list; one sentinel entry on failure. -/
def getCommandsModel : Except ApiErr (JsArrOr CommandEntry) → List OptionItem
  | .error _ => [⟨"Error loading commands", "", none⟩]
  | .ok r =>
    let commands :=
      match r with
      | .arr l => l
      | .scalar _ => []
    commands.map (fun c =>
      ⟨c.name, c.name, some (orString c.description ("Command: " ++ c.name))⟩)

/-- A skill manifest as collected by the directory scan. -/
structure SkillInfo where
  name : String
  description : String
deriving DecidableEq

/-- Deduplicate skills by name, keeping first occurrences (the
`seenNames` set of `getSkills`). -/
def dedupSkills : List SkillInfo → List String → List SkillInfo
  | [], _ => []
  | s :: rest, seen =>
    if seen.contains s.name then dedupSkills rest seen
    else s :: dedupSkills rest (s.name :: seen)

/-- Insert into a name-sorted list. -/
def insertByName (s : SkillInfo) : List SkillInfo → List SkillInfo
  | [] => [s]
  | t :: rest => if s.name ≤ t.name then s :: t :: rest else t :: insertByName s rest

/-- Sort skills by name (the `localeCompare` sort of `getSkills`). -/
def sortSkillsByName : List SkillInfo → List SkillInfo
  | [] => []
  | s :: rest => insertByName s (sortSkillsByName rest)

/-- Truncate a skill description to 100 characters with an ellipsis. -/
def truncateDescr (d : String) : String :=
  if d.length > 100 then d.take 100 ++ "..." else d

/-- Model of the `getSkills` loader: flatten the per-directory scans,
deduplicate by name, sort; a "No skills found" sentinel when empty, an
error sentinel when the scan threw. -/
def getSkillsModel : Except ApiErr (List (List SkillInfo)) → List OptionItem
  | .error _ => [⟨"Error loading skills", "", none⟩]
  | .ok dirLists =>
    let allSkills := sortSkillsByName (dedupSkills dirLists.flatten [])
    if allSkills.isEmpty then [⟨"No skills found", "", none⟩]
    else allSkills.map (fun s => ⟨s.name, s.name, some (truncateDescr s.description)⟩)

/-! ### Dispatch switches (actions/index.ts) and the host execute loop
(OpenCode.node.ts execute) -/

/-- Per-operation outcomes of the message handlers for the current
item: what each handler would return or throw if dispatched. -/
structure MessageHandlers where
  send : Except String (List OutRec)
  sendAsync : Except String (List OutRec)
  list : Except String (List OutRec)
  get : Except String (List OutRec)
  command : Except String (List OutRec)
  shell : Except String (List OutRec)

/-- Per-operation outcomes of the session handlers. -/
structure SessionHandlers where
  list : Except String (List OutRec)
  get : Except String (List OutRec)
  create : Except String (List OutRec)
  delete : Except String (List OutRec)
  abort : Except String (List OutRec)
  status : Except String (List OutRec)

/-- Per-operation outcomes of the config handlers. -/
structure ConfigHandlers where
  getProviders : Except String (List OutRec)

/-- All handler outcomes for the current item. -/
structure Handlers where
  session : SessionHandlers
  message : MessageHandlers
  config : ConfigHandlers

/-- Model of `executeMessageAction` (actions/message/index.ts). -/
def executeMessageActionModel (h : MessageHandlers) (op : String) :
    Except String (List OutRec) :=
  match op with
  | "send" => h.send
  | "sendAsync" => h.sendAsync
  | "list" => h.list
  | "get" => h.get
  | "command" => h.command
  | "shell" => h.shell
  | _ => .error ("Unknown message operation: " ++ op)

/-- Model of `executeSessionAction` (actions/session/index.ts). -/
def executeSessionActionModel (h : SessionHandlers) (op : String) :
    Except String (List OutRec) :=
  match op with
  | "list" => h.list
  | "get" => h.get
  | "create" => h.create
  | "delete" => h.delete
  | "abort" => h.abort
  | "status" => h.status
  | _ => .error ("Unknown session operation: " ++ op)

/-- Model of `executeConfigAction` (actions/config/index.ts). -/
def executeConfigActionModel (h : ConfigHandlers) (op : String) :
    Except String (List OutRec) :=
  match op with
  | "getProviders" => h.getProviders
  | _ => .error ("Unknown config operation: " ++ op)

/-- Model of `executeAction` (actions/index.ts): dispatch on resource,
then on operation. -/
def executeActionModel (h : Handlers) (resource op : String) :
    Except String (List OutRec) :=
  match resource with
  | "session" => executeSessionActionModel h.session op
  | "message" => executeMessageActionModel h.message op
  | "config" => executeConfigActionModel h.config op
  | _ => .error ("Unknown resource: " ++ resource)

/-- Model of the per-item loop of `OpenCode.execute`: on a handler
error, either convert it to an `\x7berror: message\x7d` record paired to
that item and continue (continue-on-fail), or re-throw it. -/
def executeLoopModel (items : List Nat) (run : Nat → Except String (List OutRec))
    (continueOnFail : Bool) : Except String (List OutRec) :=
  match items with
  | [] => .ok []
  | i :: rest =>
    match run i with
    | .ok rs =>
      (match executeLoopModel rest run continueOnFail with
      | .ok acc => .ok (rs ++ acc)
      | .error e => .error e)
    | .error e =>
      if continueOnFail then
        (match executeLoopModel rest run continueOnFail with
        | .ok acc => .ok (⟨.obj [("error", .str e)], i⟩ :: acc)
        | .error e2 => .error e2)
      else .error e

/-! ### The list-messages action (actions/message/list.ts) -/

/-- The summary record emitted when no messages come back. -/
def listMessagesSummary (sessionId : String) (idx : Nat) : OutRec :=
  ⟨.obj [("messages", .arr []), ("count", .num "0"), ("sessionId", .str sessionId)], idx⟩

/-- Model of `listMessages`: a non-array response becomes the empty
list; an empty list yields exactly the summary record, otherwise one
record per message in order. -/
def listMessagesModel (resp : JsArrOr JVal) (sessionId : String) (idx : Nat) :
    List OutRec :=
  let messages :=
    match resp with
    | .arr l => l
    | .scalar _ => []
  if messages.isEmpty then [listMessagesSummary sessionId idx]
  else messages.map (fun m => ⟨m, idx⟩)

/-! ### Concrete instances used by witnesses and counterexamples -/

/-- An options collection with every field absent. -/
def emptyOptions : RawOptions :=
  ⟨none, none, none, none, none, none, none⟩

/-- Parameters of the "2+2?" scenario: existing session "s1", simple
response mode, defaults everywhere else. -/
def scenarioParams : SendParams :=
  { sessionMode := "existing", message := "2+2?", simpleResponse := true,
    model := "", options := emptyOptions,
    tempSessionTitle := "Temporary Chat Session", sessionId := "s1" }

/-- Remote behavior answering every send with one text part "4". -/
def scenarioWorld : World :=
  { createRes := .error (.requestFailed "unused")
    sendRes := fun _ _ => .ok ⟨some [⟨"text", some "4", none⟩], none⟩
    deleteRes := fun _ => .ok () }

/-- Remote behavior answering every send with one text part "four". -/
def scenarioWorldFour : World :=
  { createRes := .error (.requestFailed "unused")
    sendRes := fun _ _ => .ok ⟨some [⟨"text", some "four", none⟩], none⟩
    deleteRes := fun _ => .ok () }

/-- Temporary-session parameters used by the lifecycle witnesses. -/
def tempParams : SendParams :=
  { sessionMode := "temporary", message := "hello", simpleResponse := false,
    model := "", options := emptyOptions,
    tempSessionTitle := "Temporary Chat Session", sessionId := "" }

/-- Remote behavior where create yields "tmp1", the send throws and the
delete fails too. -/
def tempWorld : World :=
  { createRes := .ok "tmp1"
    sendRes := fun _ _ => .error (.requestFailed "send blew up")
    deleteRes := fun _ => .error (.requestFailed "delete failed") }

/-- Remote behavior where the create call itself fails. -/
def createFailWorld : World :=
  { createRes := .error (.requestFailed "create failed")
    sendRes := fun _ _ => .ok ⟨none, none⟩
    deleteRes := fun _ => .ok () }

/-- A response-part list holding one tool part (output "TOOL") and one
text part ("TEXT"). -/
def mixedParts : List MessagePart :=
  [⟨"tool", none, some ⟨some "TOOL", none⟩⟩, ⟨"text", some "TEXT", none⟩]

/-- Handler outcomes that all succeed with no records. -/
def trivialHandlers : Handlers :=
  ⟨⟨.ok [], .ok [], .ok [], .ok [], .ok [], .ok []⟩,
    ⟨.ok [], .ok [], .ok [], .ok [], .ok [], .ok []⟩,
    ⟨.ok []⟩⟩

/-- Per-item outcomes where item 0 succeeds and item 1 throws. -/
def failAtOne : Nat → Except String (List OutRec) :=
  fun i => if i = 0 then .ok [] else .error "boom"

/-- Is this outcome a success? -/
def exceptIsOk : Except String (List OutRec) → Bool
  | .ok _ => true
  | .error _ => false

/-- The cleanup contract of temporary-session mode: exactly one delete
request, only for the created id; the try-block outcome is the
caller-visible outcome; a send error resurfaces unchanged, a send
success maps to the output records; and the delete outcome never
changes the result (deletion failures are swallowed). -/
def tempCleanupSpec (w : World) (p : SendParams) (sid : String) (idx : Nat) : Prop :=
  ((sendMessageModel w p idx).calls.countP (ApiCall.isDeleteFor sid) = 1)
  ∧ ((sendMessageModel w p idx).calls.countP ApiCall.isDelete = 1)
  ∧ ((sendMessageModel w p idx).res = (sendTryBlock w p sid true idx).1)
  ∧ (∀ e, w.sendRes sid (buildSendPayload p) = .error e →
      (sendMessageModel w p idx).res = .error e)
  ∧ (∀ resp, w.sendRes sid (buildSendPayload p) = .ok resp →
      (sendMessageModel w p idx).res = .ok (mkSendOutput p sid true resp idx))
  ∧ (∀ d2 : String → Except ApiErr Unit,
      (sendMessageModel ⟨w.createRes, w.sendRes, d2⟩ p idx).res =
        (sendMessageModel w p idx).res)

/-! ### Shared lemmas -/

/-- Folding the join step agrees with the recursive newline join. -/
theorem foldlJoinEq (rest : List String) :
    ∀ s, rest.foldl (fun a b => a ++ "\n" ++ b) s = specJoinNl (s :: rest) := by
  induction rest with
  | nil => intro s; rfl
  | cons b rs ih =>
    intro s
    rw [List.foldl_cons, ih]
    cases rs with
    | nil => simp [specJoinNl]
    | cons r rs2 => simp [specJoinNl, String.append_assoc]

/-- The filter/map pipeline agrees with the spec-side text-field list. -/
theorem textFieldsEq (parts : List MessagePart) :
    (parts.filter (fun p => p.type == "text")).map partTextOrEmpty =
      specTextFields parts := by
  induction parts with
  | nil => rfl
  | cons p rest ih =>
    by_cases h : p.type = "text"
    · simp [List.filter_cons, h, specTextFields, partTextOrEmpty, ih]
    · simp [List.filter_cons, h, specTextFields, ih]

/-- The source-side flattening equals the spec-side join of text
fields. -/
theorem responseTextRawEq (parts : List MessagePart) :
    responseTextRaw parts = specJoinNl (specTextFields parts) := by
  unfold responseTextRaw
  rw [textFieldsEq]
  cases hsp : specTextFields parts with
  | nil => rfl
  | cons s rest => exact foldlJoinEq rest s

/-- C2: for every send response whose parts list is given, the
flattened response text equals the `text` fields of exactly the parts
with type "text", in their original order, joined with a single newline
(absent text fields contributing the empty string), trimmed iff the
trim-response option is set. -/
theorem send_flattened_text_spec (parts : List MessagePart) (trimFlag : Bool) :
    applyTrim trimFlag (responseTextRaw parts) = specFlattenedText parts trimFlag := by
  unfold applyTrim specFlattenedText
  rw [responseTextRawEq]

/-- Shape of `sendMessageModel` in temporary mode once the create call
has returned an id. -/
theorem sendMessageModelTempEq (w : World) (p : SendParams) (idx : Nat) (sid : String)
    (hmode : p.sessionMode = "temporary") (hc : w.createRes = .ok sid) :
    sendMessageModel w p idx =
      ⟨(sendTryBlock w p sid true idx).1,
        .createSession p.tempSessionTitle :: (sendTryBlock w p sid true idx).2
          ++ [.deleteSession sid],
        (deleteSessionHelper w sid).2⟩ := by
  unfold sendMessageModel
  simp [hmode, hc, deleteSessionHelper, sendTryBlock]

/-- C1: in temporary-session mode, whatever the outcome of the inner
send, exactly one delete request is issued and it names the created
session id; a delete failure is swallowed and never alters the result;
and the inner send's result or error reaches the caller unchanged. -/
theorem sendMessage_temporary_cleanup
    (w : World) (p : SendParams) (idx : Nat) (sid : String)
    (hmode : p.sessionMode = "temporary") (hc : w.createRes = .ok sid) :
    tempCleanupSpec w p sid idx := by
  have hm := sendMessageModelTempEq w p idx sid hmode hc
  have hm2 : ∀ d2 : String → Except ApiErr Unit,
      sendMessageModel ⟨w.createRes, w.sendRes, d2⟩ p idx =
        ⟨(sendTryBlock w p sid true idx).1,
          .createSession p.tempSessionTitle :: (sendTryBlock w p sid true idx).2
            ++ [.deleteSession sid],
          (deleteSessionHelper ⟨w.createRes, w.sendRes, d2⟩ sid).2⟩ :=
    fun d2 => sendMessageModelTempEq ⟨w.createRes, w.sendRes, d2⟩ p idx sid hmode hc
  unfold tempCleanupSpec
  cases hsr : w.sendRes sid (buildSendPayload p) with
  | error e =>
    have htb : sendTryBlock w p sid true idx =
        (.error e, [.postMessage sid (buildSendPayload p)]) := by
      unfold sendTryBlock
      simp only [hsr]
    refine ⟨?_, ?_, ?_, ?_, ?_, ?_⟩
    · rw [hm, htb]
      simp [List.countP_cons, ApiCall.isDeleteFor]
    · rw [hm, htb]
      simp [List.countP_cons, ApiCall.isDelete]
    · rw [hm]
    · intro e2 h2
      cases h2
      rw [hm, htb]
    · intro resp2 h2
      cases h2
    · intro d2
      rw [hm, hm2 d2]
  | ok resp =>
    have htb : sendTryBlock w p sid true idx =
        (.ok (mkSendOutput p sid true resp idx),
          [.postMessage sid (buildSendPayload p)]) := by
      unfold sendTryBlock
      simp only [hsr]
    refine ⟨?_, ?_, ?_, ?_, ?_, ?_⟩
    · rw [hm, htb]
      simp [List.countP_cons, ApiCall.isDeleteFor]
    · rw [hm, htb]
      simp [List.countP_cons, ApiCall.isDelete]
    · rw [hm]
    · intro e2 h2
      cases h2
    · intro resp2 h2
      cases h2
      rw [hm, htb]
    · intro d2
      rw [hm, hm2 d2]

/-- Witness for C1 at a concrete world where the create call returned
"tmp1", the send threw and the delete failed. -/
theorem sendMessage_temporary_cleanup_witness :
    tempCleanupSpec tempWorld tempParams "tmp1" 0 :=
  sendMessage_temporary_cleanup tempWorld tempParams 0 "tmp1" rfl rfl

/-- C9: in temporary mode a create-session failure propagates to the
caller, and neither a message POST nor a delete is ever issued. -/
theorem create_failure_propagates
    (w : World) (p : SendParams) (idx : Nat) (e : ApiErr)
    (hmode : p.sessionMode = "temporary") (hc : w.createRes = .error e) :
    (sendMessageModel w p idx).res = .error e
    ∧ (sendMessageModel w p idx).calls = [.createSession p.tempSessionTitle]
    ∧ (sendMessageModel w p idx).calls.countP ApiCall.isPost = 0
    ∧ (sendMessageModel w p idx).calls.countP ApiCall.isDelete = 0 := by
  have hm : sendMessageModel w p idx =
      ⟨.error e, [.createSession p.tempSessionTitle], []⟩ := by
    unfold sendMessageModel
    simp [hmode, hc]
  refine ⟨?_, ?_, ?_, ?_⟩
  · rw [hm]
  · rw [hm]
  · rw [hm]
    simp [List.countP_cons, ApiCall.isPost]
  · rw [hm]
    simp [List.countP_cons, ApiCall.isDelete]

/-- Witness for C9 at a concrete world whose create call fails. -/
theorem create_failure_propagates_witness :
    (sendMessageModel createFailWorld tempParams 0).res =
      .error (.requestFailed "create failed")
    ∧ (sendMessageModel createFailWorld tempParams 0).calls =
      [.createSession "Temporary Chat Session"]
    ∧ (sendMessageModel createFailWorld tempParams 0).calls.countP ApiCall.isPost = 0
    ∧ (sendMessageModel createFailWorld tempParams 0).calls.countP ApiCall.isDelete = 0 :=
  create_failure_propagates createFailWorld tempParams 0
    (.requestFailed "create failed") rfl rfl

/-- With no occurrence of the separator, the split scanner yields one
field: the accumulator followed by the rest. -/
theorem splitLoopNoOcc (sub : List Char) :
    ∀ (l : List Char) (fuel : Nat) (acc : List Char),
      l.length ≤ fuel → hasOcc sub l = false →
      splitLoop sub fuel l acc = [acc.reverse ++ l] := by
  intro l
  induction l with
  | nil =>
    intro fuel acc _ _
    cases fuel <;> simp [splitLoop]
  | cons c rest ih =>
    intro fuel acc hlen hocc
    cases fuel with
    | zero => simp at hlen
    | succ f =>
      simp only [hasOcc, Bool.or_eq_false_iff] at hocc
      rw [splitLoop, if_neg (by simp [hocc.1])]
      rw [ih f (c :: acc) (by simpa using hlen) hocc.2]
      simp

/-- Splitting `p ++ "::" ++ m` where `p` has no occurrence of `::` and
does not end in `:`, and `m` has no occurrence of `::`, cuts exactly at
the boundary. -/
theorem splitLoopBoundary :
    ∀ (p : List Char) (fuel : Nat) (acc m : List Char),
      p.length + 2 + m.length ≤ fuel →
      hasOcc [':', ':'] p = false →
      p.getLast? ≠ some ':' →
      hasOcc [':', ':'] m = false →
      splitLoop [':', ':'] fuel (p ++ ':' :: ':' :: m) acc = [acc.reverse ++ p, m] := by
  intro p
  induction p with
  | nil =>
    intro fuel acc m hlen _ _ hoccm
    cases fuel with
    | zero => simp at hlen
    | succ f =>
      rw [List.nil_append, splitLoop, if_pos (by simp [List.isPrefixOf])]
      have hd : List.drop ([':', ':'].length - 1) (':' :: m) = m := by simp
      rw [hd, splitLoopNoOcc [':', ':'] m f [] (by simp at hlen; omega) hoccm]
      simp
  | cons c p2 ih =>
    intro fuel acc m hlen hocc hlast hoccm
    cases fuel with
    | zero => simp at hlen
    | succ f =>
      simp only [hasOcc, Bool.or_eq_false_iff] at hocc
      have hpre : List.isPrefixOf [':', ':'] (c :: (p2 ++ ':' :: ':' :: m)) = false := by
        cases p2 with
        | nil =>
          have hc : c ≠ ':' := by
            intro hcc
            exact hlast (by simp [hcc])
          simp [List.isPrefixOf, hc, Ne.symm hc]
        | cons d p3 =>
          have := hocc.1
          simp only [List.isPrefixOf, List.cons_append] at this ⊢
          simpa using this
      rw [List.cons_append, splitLoop, if_neg (by simp [hpre])]
      rw [ih f (c :: acc) m (by simp at hlen ⊢; omega) hocc.2 ?_ hoccm]
      · simp
      · cases p2 with
        | nil => simp
        | cons d p3 =>
          rw [List.getLast?_cons_cons] at hlast
          exact hlast

/-- The separator occurs in any sandwich around it. -/
theorem hasOccSandwich (l r : List Char) :
    hasOcc [':', ':'] (l ++ ':' :: ':' :: r) = true := by
  induction l with
  | nil => simp [hasOcc, List.isPrefixOf]
  | cons c l2 ih => simp [hasOcc, ih]

/-- C3 counterexample: providerID ":" and modelID "x" contain no "::",
yet encoding then decoding yields `("", ":x")`, not the original pair —
the separator match straddles the boundary. -/
theorem model_selector_roundtrip_counterexample :
    jsIncludes ":" "::" = false
    ∧ jsIncludes "x" "::" = false
    ∧ decodeModelSelector (encodeModelSelector ":" "x") = some ⟨"", ":x"⟩
    ∧ decodeModelSelector (encodeModelSelector ":" "x") ≠ some ⟨":", "x"⟩ := by
  refine ⟨by decide, by decide, by decide, by decide⟩

/-- C3 amended: the encode/decode round-trip over "::" recovers the
original pair provided neither component contains "::" and the
providerID additionally does not end in the character ":". -/
theorem model_selector_roundtrip_amended (p m : String)
    (hp : jsIncludes p "::" = false)
    (hlast : p.data.getLast? ≠ some ':')
    (hm : jsIncludes m "::" = false) :
    decodeModelSelector (encodeModelSelector p m) = some ⟨p, m⟩ := by
  have hdata : (encodeModelSelector p m).data = p.data ++ ':' :: ':' :: m.data := by
    simp [encodeModelSelector, String.data_append]
  have hne : encodeModelSelector p m ≠ "" := by
    intro h
    have := congrArg String.data h
    rw [hdata] at this
    simp at this
  have hinc : jsIncludes (encodeModelSelector p m) "::" = true := by
    unfold jsIncludes
    rw [hdata]
    exact hasOccSandwich p.data m.data
  have hsplit : jsSplit (encodeModelSelector p m) "::" = [p, m] := by
    unfold jsSplit
    rw [hdata]
    have hlen : (p.data ++ ':' :: ':' :: m.data).length =
        p.data.length + 2 + m.data.length := by
      simp
      omega
    rw [hlen, splitLoopBoundary p.data (p.data.length + 2 + m.data.length) [] m.data
      (le_refl _) hp hlast hm]
    simp
  unfold decodeModelSelector
  rw [if_neg hne, if_pos hinc, hsplit]
  rfl

/-- Witness for the amended C3 at providerID "anthropic", modelID
"claude-3". -/
theorem model_selector_roundtrip_amended_witness :
    decodeModelSelector (encodeModelSelector "anthropic" "claude-3") =
      some ⟨"anthropic", "claude-3"⟩ :=
  model_selector_roundtrip_amended "anthropic" "claude-3"
    (by decide) (by decide) (by decide)

/-- C4 counterexample: the commands, agents and sessions loaders return
an empty option list when the remote query succeeds with an empty (or,
for agents, non-array) result — not a non-empty list. -/
theorem option_loader_counterexample :
    getCommandsModel (.ok (.arr [])) = []
    ∧ getSessionsModel (.ok (.arr [])) = []
    ∧ getAgentsModel (.ok (.arr [])) = []
    ∧ getAgentsModel (.ok (.scalar ⟨"build", none⟩)) = [] := by
  refine ⟨rfl, rfl, rfl, rfl⟩

/-- C4 amended: every loader returns exactly one sentinel entry on a
failed query and never throws; the models and skills loaders always
return a non-empty list; the sessions, agents and commands loaders
return one entry per remote item (plus a leading primary entry for
agents) and hence are non-empty only when the successful remote result
is non-empty. -/
theorem option_loaders_amended :
    (∀ e : ApiErr,
      getSessionsModel (.error e) = [⟨"Error loading sessions", "", none⟩]
      ∧ getModelsModel (.error e) = [⟨"(Default)", "", none⟩]
      ∧ getAgentsModel (.error e) = [⟨"(Default)", "", none⟩]
      ∧ getCommandsModel (.error e) = [⟨"Error loading commands", "", none⟩]
      ∧ getSkillsModel (.error e) = [⟨"Error loading skills", "", none⟩])
    ∧ (∀ r, getModelsModel r ≠ [])
    ∧ (∀ r, getSkillsModel r ≠ [])
    ∧ (∀ l, (getSessionsModel (.ok (.arr l))).length = l.length)
    ∧ (∀ v, (getSessionsModel (.ok (.scalar v))).length = 1)
    ∧ (∀ l, (getCommandsModel (.ok (.arr l))).length = l.length)
    ∧ (∀ v, getCommandsModel (.ok (.scalar v)) = [])
    ∧ (∀ v, getAgentsModel (.ok (.scalar v)) = [])
    ∧ (∀ l, l ≠ [] → getAgentsModel (.ok (.arr l)) ≠ []) := by
  refine ⟨fun e => ⟨rfl, rfl, rfl, rfl, rfl⟩, ?_, ?_, ?_, ?_, ?_, ?_, ?_, ?_⟩
  · intro r
    cases r with
    | error e => simp [getModelsModel]
    | ok v => simp [getModelsModel]
  · intro r
    cases r with
    | error e => simp [getSkillsModel]
    | ok dirLists =>
      unfold getSkillsModel
      by_cases h : (sortSkillsByName (dedupSkills dirLists.flatten [])).isEmpty
      · simp [h]
      · simp only [h, if_neg, Bool.false_eq_true]
        simp only [List.isEmpty_iff] at h
        simp [h]
  · intro l
    simp [getSessionsModel]
  · intro v
    rfl
  · intro l
    simp [getCommandsModel]
  · intro v
    rfl
  · intro v
    rfl
  · intro l hl
    cases hf : l.find? (fun a => a.mode == some "primary") with
    | some a => simp [getAgentsModel, hf]
    | none =>
      have hfil : l.filter (fun a => !(a.mode == some "primary")) = l := by
        rw [List.filter_eq_self]
        intro a ha
        have := List.find?_eq_none.mp hf a ha
        simpa using this
      simp [getAgentsModel, hf, hfil, hl]

/-- Witness for the amended C4: a non-empty agents result yields a
non-empty option list. -/
theorem option_loaders_amended_witness :
    ([⟨"build", some "primary"⟩] : List AgentEntry) ≠ []
    ∧ getAgentsModel (.ok (.arr [⟨"build", some "primary"⟩])) ≠ [] :=
  ⟨by decide, option_loaders_amended.2.2.2.2.2.2.2.2
    [⟨"build", some "primary"⟩] (by decide)⟩

/-- Unfolding equation for the spec-side tool concatenation. -/
theorem specToolConcatCons (p : MessagePart) (rest : List MessagePart) :
    specToolConcat (p :: rest) =
      (if p.type = "tool" then
        match p.state with
        | some st => toolEffOutput st
        | none => ""
      else "") ++ specToolConcat rest := rfl

/-- Generalized accumulator form of the shell output fold. -/
theorem shellFoldGen (parts : List MessagePart) :
    ∀ acc : String,
      parts.foldl
        (fun acc p =>
          if p.type == "tool" then
            match p.state with
            | some st =>
              let out := toolEffOutput st
              if out = "" then acc else acc ++ out
            | none => acc
          else acc)
        acc = acc ++ specToolConcat parts := by
  induction parts with
  | nil =>
    intro acc
    simp [specToolConcat, String.append_empty]
  | cons p rest ih =>
    intro acc
    rw [List.foldl_cons, ih, specToolConcatCons]
    by_cases ht : p.type = "tool"
    · have hb : (p.type == "tool") = true := by simp [ht]
      simp only [hb, if_true, ht]
      cases hs : p.state with
      | none => simp [String.empty_append]
      | some st =>
        by_cases ho : toolEffOutput st = ""
        · simp [ho, String.empty_append]
        · simp [ho, String.append_assoc]
    · have hb : (p.type == "tool") = false := by simp [ht]
      simp only [hb, Bool.false_eq_true, if_false, ht]
      simp [String.empty_append]

/-- The shell fold equals the spec-side concatenation. -/
theorem shellOutputRawEq (parts : List MessagePart) :
    shellOutputRaw parts = specToolConcat parts := by
  unfold shellOutputRaw
  rw [shellFoldGen parts ""]
  exact String.empty_append _

/-- Text-typed parts contribute nothing to the spec-side tool
concatenation of the tool parts only. -/
theorem specToolConcatFilter (parts : List MessagePart) :
    specToolConcat (parts.filter (fun p => p.type == "tool")) =
      specToolConcat parts := by
  induction parts with
  | nil => rfl
  | cons p rest ih =>
    by_cases ht : p.type = "tool"
    · have hb : (p.type == "tool") = true := by simp [ht]
      rw [List.filter_cons, if_pos hb, specToolConcatCons, specToolConcatCons, ih]
    · have hb : (p.type == "tool") = false := by simp [ht]
      rw [List.filter_cons]
      rw [if_neg (by simp [hb]), specToolConcatCons, ih, if_neg ht,
        String.empty_append]

/-- C5 counterexample: on a response holding a tool part with output
"TOOL" and a text part "TEXT", the skill action's output is the text
part's content, not the tool output — the skill action does not read
tool parts. -/
theorem skill_output_counterexample :
    skillResponseText mixedParts true = "TEXT"
    ∧ shellOutput mixedParts true = "TOOL"
    ∧ skillResponseText mixedParts true ≠ shellOutput mixedParts true := by
  refine ⟨by decide, by decide, by decide⟩

/-- C5 amended: the shell action concatenates the effective outputs of
exactly the tool-typed parts carrying a state (so text parts never
contribute), where the effective output falls back to
`state.metadata.output` when `state.output` is absent or empty; the
skill action instead flattens the text-typed parts exactly like the
send action. -/
theorem shell_skill_output_amended :
    (∀ parts trimFlag, shellOutput parts trimFlag =
      applyTrim trimFlag (specToolConcat parts))
    ∧ (∀ parts trimFlag, shellOutput parts trimFlag =
      shellOutput (parts.filter (fun p => p.type == "tool")) trimFlag)
    ∧ (∀ parts trimFlag, skillResponseText parts trimFlag =
      specFlattenedText parts trimFlag)
    ∧ (∀ st : ToolState, st.output = none ∨ st.output = some "" →
      toolEffOutput st = toolMetaOutput st)
    ∧ (∀ st : ToolState, ∀ s, st.output = some s → s ≠ "" →
      toolEffOutput st = s) := by
  refine ⟨?_, ?_, ?_, ?_, ?_⟩
  · intro parts trimFlag
    unfold shellOutput
    rw [shellOutputRawEq]
  · intro parts trimFlag
    unfold shellOutput
    rw [shellOutputRawEq, shellOutputRawEq, specToolConcatFilter]
  · intro parts trimFlag
    unfold skillResponseText
    unfold applyTrim specFlattenedText
    rw [responseTextRawEq]
  · intro st h
    unfold toolEffOutput
    cases h with
    | inl h0 => rw [h0]
    | inr h0 => rw [h0]; simp
  · intro st s hs hne
    unfold toolEffOutput
    rw [hs]
    simp [hne]

/-- Witness for the amended C5 at the mixed two-part response. -/
theorem shell_skill_output_amended_witness :
    shellOutput mixedParts true = applyTrim true (specToolConcat mixedParts)
    ∧ skillResponseText mixedParts true = specFlattenedText mixedParts true
    ∧ toolEffOutput ⟨none, some ⟨some "META"⟩⟩ = toolMetaOutput ⟨none, some ⟨some "META"⟩⟩
    ∧ toolEffOutput ⟨some "OUT", none⟩ = "OUT" :=
  ⟨shell_skill_output_amended.1 mixedParts true,
    shell_skill_output_amended.2.2.1 mixedParts true,
    shell_skill_output_amended.2.2.2.1 ⟨none, some ⟨some "META"⟩⟩ (Or.inl rfl),
    shell_skill_output_amended.2.2.2.2 ⟨some "OUT", none⟩ "OUT" rfl (by decide)⟩

/-- C6 counterexample: in the "2+2?" scenario the flattened text "4"
parses as JSON, so the simple-response branch emits the parsed number
`4` itself — not the record `\x7bresponse: "4"\x7d`. -/
theorem simple_response_scenario_counterexample :
    (sendMessageModel scenarioWorld scenarioParams 0).res = .ok [⟨.num "4", 0⟩]
    ∧ (sendMessageModel scenarioWorld scenarioParams 0).res ≠
      .ok [⟨.obj [("response", .str "4")], 0⟩] := by
  refine ⟨rfl, ?_⟩
  intro h
  have h2 : (.ok [⟨JVal.num "4", 0⟩] : Except ApiErr (List OutRec)) =
      .ok [⟨.obj [("response", .str "4")], 0⟩] :=
    (rfl : (sendMessageModel scenarioWorld scenarioParams 0).res =
      .ok [⟨JVal.num "4", 0⟩]).symm.trans h
  injection h2 with h3
  injection h3 with h4 h5
  injection h4 with h6 h7
  exact JVal.noConfusion h6

/-- C6 amended: in the scenario the emitted record is the JSON-parse of
the flattened text (here the number 4, with no response key); the
`\x7bresponse: text\x7d` form is emitted exactly when the text fails to
parse as JSON, as with the text "four". -/
theorem simple_response_scenario_amended :
    (sendMessageModel scenarioWorld scenarioParams 0).res = .ok [⟨.num "4", 0⟩]
    ∧ jsonParse "4" = some (.num "4")
    ∧ (sendMessageModel scenarioWorldFour scenarioParams 0).res =
      .ok [⟨.obj [("response", .str "four")], 0⟩]
    ∧ jsonParse "four" = none := by
  refine ⟨rfl, rfl, rfl, rfl⟩

/-- C7 counterexample: the string-passthrough `executeCommand` variant
sends a non-JSON `commandArguments` through as the raw string — its
`arguments` field is not the wrapped `\x7binput: ...\x7d` object. -/
theorem command_args_counterexample :
    (buildCommandPayloadStringVariant "mycmd" "not json" "" "" "").arguments =
      .str "not json"
    ∧ (buildCommandPayloadStringVariant "mycmd" "not json" "" "" "").arguments ≠
      .obj [("input", .str "not json")] := by
  refine ⟨rfl, ?_⟩
  intro h
  have h2 : (JVal.str "not json") = .obj [("input", .str "not json")] :=
    (rfl : (buildCommandPayloadStringVariant "mycmd" "not json" "" "" "").arguments =
      .str "not json").symm.trans h
  exact JVal.noConfusion h2

/-- C7 amended: for a non-empty `commandArguments` string that is not
valid JSON, the JSON-parsing `executeCommand` variant wraps it as
`\x7binput: ...\x7d` without failing, while the string-passthrough
variant sends the raw string itself, also without failing. -/
theorem command_args_amended (s : String) (hne : s ≠ "") (hp : jsonParse s = none) :
    commandArgsJsonVariant s = .obj [("input", .str s)]
    ∧ commandArgsStringVariant s = .str s
    ∧ (buildCommandPayloadJsonVariant "c" s "" "" "").arguments =
      .obj [("input", .str s)]
    ∧ (buildCommandPayloadStringVariant "c" s "" "" "").arguments = .str s := by
  have h1 : commandArgsJsonVariant s = .obj [("input", .str s)] := by
    unfold commandArgsJsonVariant
    rw [if_neg hne, hp]
  have h2 : commandArgsStringVariant s = .str s := by
    unfold commandArgsStringVariant
    rw [if_neg hne]
  exact ⟨h1, h2, h1, h2⟩

/-- Witness for the amended C7 at the input "not json". -/
theorem command_args_amended_witness :
    commandArgsJsonVariant "not json" = .obj [("input", .str "not json")]
    ∧ commandArgsStringVariant "not json" = .str "not json"
    ∧ (buildCommandPayloadJsonVariant "c" "not json" "" "" "").arguments =
      .obj [("input", .str "not json")]
    ∧ (buildCommandPayloadStringVariant "c" "not json" "" "" "").arguments =
      .str "not json" :=
  command_args_amended "not json" (by decide) rfl

/-- C8: unknown resources and unknown operations fail with the
unsupported-operation error; with continue-on-fail set, each per-item
error becomes an `\x7berror: message\x7d` record paired to that item and
the loop continues, and without it the first error propagates to the
host unchanged. -/
theorem dispatch_and_continue_on_fail
    (h : Handlers) (r o : String)
    (run : Nat → Except String (List OutRec)) (items : List Nat) :
    (r ≠ "session" → r ≠ "message" → r ≠ "config" →
      executeActionModel h r o = .error ("Unknown resource: " ++ r))
    ∧ (o ≠ "send" → o ≠ "sendAsync" → o ≠ "list" → o ≠ "get" →
      o ≠ "command" → o ≠ "shell" →
      executeMessageActionModel h.message o =
        .error ("Unknown message operation: " ++ o))
    ∧ (o ≠ "list" → o ≠ "get" → o ≠ "create" → o ≠ "delete" →
      o ≠ "abort" → o ≠ "status" →
      executeSessionActionModel h.session o =
        .error ("Unknown session operation: " ++ o))
    ∧ (o ≠ "getProviders" →
      executeConfigActionModel h.config o =
        .error ("Unknown config operation: " ++ o))
    ∧ executeLoopModel items run true =
      .ok (items.flatMap (fun i =>
        match run i with
        | .ok rs => rs
        | .error e => [⟨.obj [("error", .str e)], i⟩]))
    ∧ (∀ pre i post e, items = pre ++ i :: post →
        (∀ j ∈ pre, exceptIsOk (run j) = true) → run i = .error e →
        executeLoopModel items run false = .error e) := by
  refine ⟨?_, ?_, ?_, ?_, ?_, ?_⟩
  · intro h1 h2 h3
    unfold executeActionModel
    split
    · exact absurd rfl h1
    · exact absurd rfl h2
    · exact absurd rfl h3
    · rfl
  · intro h1 h2 h3 h4 h5 h6
    unfold executeMessageActionModel
    split
    · exact absurd rfl h1
    · exact absurd rfl h2
    · exact absurd rfl h3
    · exact absurd rfl h4
    · exact absurd rfl h5
    · exact absurd rfl h6
    · rfl
  · intro h1 h2 h3 h4 h5 h6
    unfold executeSessionActionModel
    split
    · exact absurd rfl h1
    · exact absurd rfl h2
    · exact absurd rfl h3
    · exact absurd rfl h4
    · exact absurd rfl h5
    · exact absurd rfl h6
    · rfl
  · intro h1
    unfold executeConfigActionModel
    split
    · exact absurd rfl h1
    · rfl
  · induction items with
    | nil => rfl
    | cons i rest ih =>
      unfold executeLoopModel
      rw [ih]
      cases hr : run i with
      | ok rs => simp [hr, List.flatMap_cons]
      | error e => simp [hr, List.flatMap_cons]
  · intro pre
    induction pre generalizing items with
    | nil =>
      intro i post e hitems hok hrun
      subst hitems
      simp only [List.nil_append]
      unfold executeLoopModel
      rw [hrun]
      rfl
    | cons j pre2 ih =>
      intro i post e hitems hok hrun
      subst hitems
      simp only [List.cons_append]
      unfold executeLoopModel
      have hj : exceptIsOk (run j) = true := hok j (by simp)
      cases hr : run j with
      | error e2 =>
        rw [hr] at hj
        simp [exceptIsOk] at hj
      | ok rs =>
        have hok2 : ∀ k ∈ pre2, exceptIsOk (run k) = true := fun k hk =>
          hok k (by simp [hk])
        rw [ih (pre2 ++ i :: post) i post e rfl hok2 hrun]

/-- Witness for C8: an unknown resource and an unknown message
operation each produce the unsupported-operation error, and a two-item
run whose second item throws is either converted to an error record
(continue-on-fail) or propagated. -/
theorem dispatch_and_continue_on_fail_witness :
    executeActionModel trivialHandlers "bogus" "send" =
      .error "Unknown resource: bogus"
    ∧ executeMessageActionModel trivialHandlers.message "frobnicate" =
      .error "Unknown message operation: frobnicate"
    ∧ executeLoopModel [0, 1] failAtOne true =
      .ok [⟨.obj [("error", .str "boom")], 1⟩]
    ∧ executeLoopModel [0, 1] failAtOne false = .error "boom" := by
  have h := dispatch_and_continue_on_fail trivialHandlers "bogus" "frobnicate"
    failAtOne [0, 1]
  refine ⟨h.1 (by decide) (by decide) (by decide),
    h.2.1 (by decide) (by decide) (by decide) (by decide) (by decide) (by decide),
    h.2.2.2.2.1.trans (by rfl),
    h.2.2.2.2.2 [0] 1 [] "boom" rfl (by decide) rfl⟩

/-- C10: the list-messages action emits exactly one summary record when
the remote response is an empty array or not an array at all, and
otherwise one record per message in order; it never emits zero
records. -/
theorem list_messages_shape (sid : String) (idx : Nat) :
    (∀ v, listMessagesModel (.scalar v) sid idx = [listMessagesSummary sid idx])
    ∧ listMessagesModel (.arr []) sid idx = [listMessagesSummary sid idx]
    ∧ (∀ l, l ≠ [] → listMessagesModel (.arr l) sid idx =
        l.map (fun m => ⟨m, idx⟩))
    ∧ (∀ r, listMessagesModel r sid idx ≠ []) := by
  refine ⟨fun v => rfl, rfl, ?_, ?_⟩
  · intro l hl
    unfold listMessagesModel
    simp [hl]
  · intro r
    cases r with
    | scalar v => simp [listMessagesModel]
    | arr l =>
      cases l with
      | nil => simp [listMessagesModel]
      | cons m rest => simp [listMessagesModel]

/-- Witness for C10 at session "s1" with a one-message response. -/
theorem list_messages_shape_witness :
    listMessagesModel (.arr [.str "m1"]) "s1" 0 = [⟨.str "m1", 0⟩]
    ∧ listMessagesModel (.scalar (.str "nope")) "s1" 0 =
      [listMessagesSummary "s1" 0] :=
  ⟨((list_messages_shape "s1" 0).2.2.1 [.str "m1"]
      (by intro h; exact List.noConfusion h)).trans rfl,
    (list_messages_shape "s1" 0).1 (.str "nope")⟩
